import Mathlib

/-!
Verification of the O2morni Testing Agent against its natural-language
specification.  The JavaScript modules under the repository (browser control,
test generation, test execution, report persistence) are shallowly embedded as
executable Lean functions; the Python phase-4 selector-resolution engine,
which the repository only documents, is modelled from the specification where
a claim requires it.
-/

namespace O2morni

/-! ## String helpers (shallow model of the JS string operations used) -/

/-- Character-list membership test. -/
def hasChar (c : Char) (s : List Char) : Bool :=
  s.contains c

/-- Does `s` contain `pat` as a contiguous substring? (JS `String.includes`). -/
def hasSub (pat : List Char) : List Char → Bool
  | [] => pat.isEmpty
  | c :: rest => pat.isPrefixOf (c :: rest) || hasSub pat rest

/-- `String.includes` on Lean strings. -/
def strIncludes (s pat : String) : Bool :=
  hasSub pat.toList s.toList

/-- Node `path.basename` for POSIX paths: drop trailing slashes, then take the
segment after the last slash. -/
def jsBasename (p : String) : String :=
  let cs := (p.toList.reverse.dropWhile (fun c => c == '/')).reverse
  String.mk (cs.reverse.takeWhile (fun c => c != '/')).reverse

/-- Node `path.join dir p` restricted to what the executor needs: concatenation
with a single separator (normalization of `..` is irrelevant to the embedded
checks, which only test existence of the joined path through the environment). -/
def jsJoin (dir p : String) : String :=
  dir ++ "/" ++ p

/-! ## Browser control module (`browserControl.js`)

`navigateTo` and `performAction` wrap Playwright calls.  The live page is an
external collaborator, so each embedded function takes the outcome of the
underlying page call as an explicit argument; what the embedding keeps faithful
is the option record passed to the call (in particular which explicit timeout,
if any, accompanies each wait) and how outcomes are mapped to results. -/

/-- Result shape `{ success, url?, message?, error? }` returned by the browser
control functions. -/
structure BrowserResult where
  success : Bool
  url : Option String := none
  message : Option String := none
  error : Option String := none
  deriving Repr, DecidableEq

/-- Outcome of an underlying Playwright page call: it either returns normally
or throws an error with a message (a timeout surfaces as a thrown
`TimeoutError`, never as an unresolved promise). -/
inductive PageOutcome where
  | ok : PageOutcome
  | thrown : String → PageOutcome
  deriving Repr, DecidableEq

/-- The options record `navigateTo` passes to `page.goto`:
`{ waitUntil: 'networkidle', timeout: 30000 }`. -/
structure GotoOptions where
  waitUntil : String
  timeout : Option Nat
  deriving Repr, DecidableEq

/-- The literal options `navigateTo` passes to its single wait
(`page.goto(url, { waitUntil: 'networkidle', timeout: 30000 })`). -/
def navigateToGotoOptions : GotoOptions :=
  { waitUntil := "networkidle", timeout := some 30000 }

/-- `navigateTo(url)`: runs `page.goto` with `navigateToGotoOptions`; a normal
return yields `{ success: true, url, message }`, a thrown error (timeouts
included) is caught and yields `{ success: false, error }`.  `landedUrl` is
`page.url()` after the navigation. -/
def navigateTo (outcome : PageOutcome) (url landedUrl : String) : BrowserResult :=
  match outcome with
  | .ok =>
      { success := true, url := some landedUrl,
        message := some ("Navigated to " ++ url) }
  | .thrown msg =>
      { success := false, error := some msg }

/-- The explicit timeout option `performAction` passes to the page call serving
the given action, or `none` when the action is unknown and no page call is
made.  Every supported branch calls the page API with no options argument, so
the explicit timeout is `none` in all of them. -/
def performActionExplicitTimeout (action : String) : Option (Option Nat) :=
  match action with
  | "click" => some none
  | "type" => some none
  | "press" => some none
  | "select" => some none
  | _ => none

/-- `performAction(action, selector, value)`: requires an initialized page;
dispatches on the action string (`click` → `page.click`, `type` → `page.fill`,
`press` → `page.press`, `select` → `page.selectOption`); any other action
returns `{ success: false, error: 'Unknown action: …' }` without touching the
page; a thrown page error is caught and returned as
`{ success: false, error: message }`. -/
def performAction (pageReady : Bool) (outcome : PageOutcome)
    (action selector value : String) : BrowserResult :=
  if !pageReady then
    { success := false, error := some "Browser not initialized" }
  else
    match action with
    | "click" | "type" | "press" | "select" =>
        match outcome with
        | .ok =>
            { success := true,
              message := some ("Action " ++ action ++ " performed successfully") }
        | .thrown msg =>
            { success := false, error := some msg }
    | _ => { success := false, error := some ("Unknown action: " ++ action) }

/-! ## Test generator module (`testGenerator.js`) -/

/-- The single-quote character, written by code point to keep the embedding
readable. -/
def squoteChar : Char := Char.ofNat 39

/-- Single-quote as a one-character string. -/
def sq : String := String.mk [squoteChar]

/-- One step of `str.replace(/['"\\]/g, '\\$&').replace(/\n/g, '\\n')`:
quotes and backslashes get a preceding backslash, a newline becomes the two
characters `\` `n`, everything else is kept as is. -/
def escChar (c : Char) : List Char :=
  if c == squoteChar || c == '"' || c == '\\' then ['\\', c]
  else if c == '\n' then ['\\', 'n']
  else [c]

/-- Apply `escChar` across a character list. -/
def sanitizeChars : List Char → List Char
  | [] => []
  | c :: rest => escChar c ++ sanitizeChars rest

/-- `sanitizeString(str)`: empty (falsy) input yields `''`; otherwise quotes and
backslashes are backslash-escaped and newlines are rewritten to `\n`. -/
def sanitizeString (s : String) : String :=
  if s.isEmpty then "" else String.mk (sanitizeChars s.toList)

/-- `url.replace(/['"\\]/g, '\\$&')` — the URL branch escapes quotes and
backslashes but, unlike `sanitizeString`, leaves newlines alone. -/
def escQuotesOnly : List Char → List Char
  | [] => []
  | c :: rest =>
      (if c == squoteChar || c == '"' || c == '\\' then ['\\', c] else [c])
        ++ escQuotesOnly rest

/-- `sanitizeUrl(url)`: empty input gives `about:blank`; otherwise the WHATWG
`new URL(url)` check (an external platform facility, passed in as the
`isValidURL` oracle) decides between the quote-escaped original and
`about:blank`. -/
def sanitizeUrl (isValidURL : String → Bool) (url : String) : String :=
  if url.isEmpty then "about:blank"
  else if isValidURL url then String.mk (escQuotesOnly url.toList)
  else "about:blank"

/-- `parseInt(value) || 1000`: leading decimal digits of the string, with `NaN`
and `0` both falling back to 1000. -/
def jsParseIntOr1000 (value : String) : Nat :=
  let digits := value.toList.takeWhile (fun c => c.isDigit)
  match digits with
  | [] => 1000
  | _ =>
      let n := digits.foldl (fun acc c => acc * 10 + (c.toNat - 48)) 0
      if n == 0 then 1000 else n

/-- Wrap a string in single quotes, as the generated code does around every
embedded literal. -/
def quoteLit (s : String) : String := sq ++ s ++ sq

/-- `generateActionCode(action, index)`: one generated line per action; the
selector and value go through `sanitizeString` first; an unknown type is
interpolated raw into a comment line. -/
def generateActionCode (ty selector value : String) : String :=
  let s := sanitizeString selector
  let v := sanitizeString value
  match ty with
  | "click" => "    await page.click(" ++ quoteLit s ++ ");"
  | "type" => "    await page.fill(" ++ quoteLit s ++ ", " ++ quoteLit v ++ ");"
  | "press" => "    await page.press(" ++ quoteLit s ++ ", " ++ quoteLit v ++ ");"
  | "select" =>
      "    await page.selectOption(" ++ quoteLit s ++ ", " ++ quoteLit v ++ ");"
  | "wait" =>
      "    await page.waitForTimeout(" ++ toString (jsParseIntOr1000 value) ++ ");"
  | "waitForSelector" => "    await page.waitForSelector(" ++ quoteLit s ++ ");"
  | _ => "    // Unknown action type: " ++ ty

/-- Scanner for the body of a single-quoted JavaScript string literal: `true`
iff the whole character list is consumed without closing or breaking the
literal.  A backslash escapes the next character; an unescaped single quote
terminates the literal; an unescaped line terminator (`\n` or `\r`) is illegal
inside the literal and breaks it; a trailing lone backslash swallows the
closing quote. -/
def litConsumesAll : List Char → Bool
  | [] => true
  | c :: rest =>
      if c == '\\' then
        match rest with
        | [] => false
        | _ :: rest2 => litConsumesAll rest2
      else if c == squoteChar then false
      else if c == '\n' || c == '\r' then false
      else litConsumesAll rest

/-! ## Test executor module (`testExecutor.js`, spawn variant)

The filesystem and the spawned Playwright process are external, so the
embedding threads them through explicitly: `existsAt` answers the `fs.access`
probe on the joined path, `spawn` is the outcome of the child process, and the
reports directory is a list of named parsed JSON files. -/

/-- A persisted report file's parsed content (`report-<ts>.json`). -/
structure StoredReport where
  id : String
  testPath : String
  timestamp : Nat
  executionTime : Nat
  success : Bool
  output : String
  errors : String
  deriving Repr, DecidableEq

/-- The reports directory: file name paired with parsed JSON content. -/
abbrev ReportsDir := List (String × StoredReport)

/-- Outcome of `spawn('npx', ['playwright', 'test', fullPath, ...])`:
the process closes with an exit code after emitting stdout/stderr, or the
promise rejects (spawn error, or the 60 s timeout kill). -/
inductive SpawnOutcome where
  | exit (code : Nat) (stdout stderr : String)
  | rejected (msg : String)
  deriving Repr, DecidableEq

/-- Map the spawn outcome to the inner `result` object: exit code 0 resolves to
success with the captured streams; a nonzero close rejects with
`Test process exited with code N`, which the catch turns into a failure whose
`output` is empty (the `Error` carries no `stdout`) and whose `errors` is the
message; any other rejection is handled the same way. -/
def runFromSpawn : SpawnOutcome → Bool × String × String
  | .exit 0 out err => (true, out, err)
  | .exit (n + 1) _ _ => (false, "", "Test process exited with code " ++ toString (n + 1))
  | .rejected msg => (false, "", msg)

/-- Directory holding generated tests (modelled by its repository-relative
name; `executeTest` joins the incoming `testPath` onto it). -/
def GENERATED_TESTS_DIR : String := "generated_tests"

/-- The path-safety validation of `executeTest`:
`path.basename(testPath) !== testPath || testPath.includes('..') ||
testPath.includes(';') || testPath.includes('&')`. -/
def pathInvalid (p : String) : Bool :=
  (jsBasename p != p) || strIncludes p ".." || strIncludes p ";" || strIncludes p "&"

/-- The value `executeTest` returns: early failures carry only
`success`/`error`; a completed run spreads the inner result and adds
`executionTime` and `reportId`. -/
structure ExecResult where
  success : Bool
  error : Option String := none
  output : Option String := none
  errors : Option String := none
  executionTime : Option Nat := none
  reportId : Option String := none
  deriving Repr, DecidableEq

/-- External circumstances of one `executeTest` call: the `fs.access`
answer for the joined path, the spawn outcome, `Date.now()` at report creation,
and the measured wall-clock duration. -/
structure ExecEnv where
  existsAt : String → Bool
  spawn : SpawnOutcome
  now : Nat
  elapsed : Nat

/-- Result triple of the embedded `executeTest`: the returned value, the
reports directory afterwards, and whether a child process was launched. -/
structure ExecOutput where
  res : ExecResult
  dir : ReportsDir
  launched : Bool
  deriving DecidableEq

/-- `saveReport(report)`: write `<id>.json` into the reports directory,
overwriting a file of the same name. -/
def saveReport (dir : ReportsDir) (r : StoredReport) : ReportsDir :=
  let name := r.id ++ ".json"
  if dir.any (fun e => e.1 == name) then
    dir.map (fun e => if e.1 == name then (e.1, r) else e)
  else
    dir ++ [(name, r)]

/-- `executeTest(testPath)`: probe the joined path (`Test file not found` on a
missing file, without saving anything); reject unsafe paths (`Invalid test
path`, again without saving or spawning); otherwise spawn the Playwright
process, build the report from the outcome, persist it via `saveReport`, and
return the result enriched with `executionTime` and `reportId`. -/
def executeTest (env : ExecEnv) (dir : ReportsDir) (testPath : String) : ExecOutput :=
  let fullPath := jsJoin GENERATED_TESTS_DIR testPath
  if !env.existsAt fullPath then
    ⟨{ success := false, error := some ("Test file not found: " ++ testPath) },
      dir, false⟩
  else if pathInvalid testPath then
    ⟨{ success := false, error := some "Invalid test path" }, dir, false⟩
  else
    let result := runFromSpawn env.spawn
    let reportId := "report-" ++ toString env.now
    let report : StoredReport :=
      { id := reportId, testPath := testPath, timestamp := env.now,
        executionTime := env.elapsed, success := result.1,
        output := result.2.1, errors := result.2.2 }
    ⟨{ success := result.1, output := some result.2.1, errors := some result.2.2,
       executionTime := some env.elapsed, reportId := some reportId },
      saveReport dir report, true⟩

/-! ## Reporting module (`reporting.js`) -/

/-- Summary entry pushed by `getReportList` for each `.json` file. -/
structure ReportSummary where
  id : String
  testPath : String
  timestamp : Nat
  success : Bool
  executionTime : Nat
  deriving Repr, DecidableEq

/-- The summary `getReportList` extracts from one parsed report. -/
def summaryOf (r : StoredReport) : ReportSummary :=
  { id := r.id, testPath := r.testPath, timestamp := r.timestamp,
    success := r.success, executionTime := r.executionTime }

/-- Insert a summary into a list kept in non-increasing timestamp order. -/
def insertByTs (x : ReportSummary) : List ReportSummary → List ReportSummary
  | [] => [x]
  | y :: ys => if y.timestamp ≤ x.timestamp then x :: y :: ys else y :: insertByTs x ys

/-- The effect of `reports.sort((a, b) => new Date(b.timestamp) -
new Date(a.timestamp))`: order the summaries by non-increasing timestamp. -/
def sortByTsDesc : List ReportSummary → List ReportSummary
  | [] => []
  | x :: xs => insertByTs x (sortByTsDesc xs)

/-- `getReportList()`: one summary per file ending in `.json` (screenshots and
other files are skipped), sorted by timestamp descending. -/
def getReportList (dir : ReportsDir) : List ReportSummary :=
  sortByTsDesc ((dir.filter (fun e => e.1.endsWith ".json")).map (fun e => summaryOf e.2))

/-- `getReportById(id)`: read and parse `<id>.json`; a read failure (no such
file) is caught and yields `null`. -/
def getReportById (dir : ReportsDir) (id : String) : Option StoredReport :=
  (dir.find? (fun e => e.1 == id ++ ".json")).map (fun e => e.2)

/-! ## Phase-4 selector-resolution engine

The repository ships only the documentation of this engine (the Python
`backend/agents/llm_agent.py` described in the Phase 4 flow document and in
`backend/README.md`); the code itself is not among the sources.  The
definitions below are therefore modelled from the specification, §3–§4.1 and
§4.3–§4.4. -/

/-- Modelled from the spec: the known action kinds of a Step
(`navigate|fill|click|press|select|wait`, §3); the engine code
(`backend/agents/llm_agent.py`) is not among the sources. -/
inductive ActionType where
  | navigate | fill | click | press | select | wait
  deriving Repr, DecidableEq

/-- Modelled from the spec: the tier that produced a ResolvedAction (§3). -/
inductive SourceTier where
  | oracle | artifact | heuristic
  deriving Repr, DecidableEq

/-- Modelled from the spec: one Step of a TestCase (§3). -/
structure Step where
  index : Nat
  description : String
  intendedType : ActionType
  targetHint : Option String := none
  value : Option String := none
  deriving Repr, DecidableEq

/-- Modelled from the spec: the live-page snapshot taken by the
PageIntrospector, reduced to the candidate selectors of the elements observed
present (§2, §4.1 tier 1 existence check). -/
structure PageSnapshot where
  elements : List String
  deriving Repr, DecidableEq

/-- Modelled from the spec: the SelectorOracle's answer
`{ action, selector }` (§6). -/
structure OracleResponse where
  action : String
  selector : String
  deriving Repr, DecidableEq

/-- Modelled from the spec: the ResolvedAction record
`{ stepIndex, action, selector, value, sourceTier }` (§3). -/
structure ResolvedAction where
  stepIndex : Nat
  action : ActionType
  selector : String
  value : Option String
  sourceTier : SourceTier
  deriving Repr, DecidableEq

/-- Modelled from the spec: recognition of a known action kind in the oracle's
textual answer (§4.1 tier 1: "the action type is one of the known kinds"). -/
def knownAction? : String → Option ActionType
  | "navigate" => some .navigate
  | "fill" => some .fill
  | "click" => some .click
  | "press" => some .press
  | "select" => some .select
  | "wait" => some .wait
  | _ => none

/-- Modelled from the spec: the oracle tier (§4.1 tier 1).  Accept only if a
snapshot was taken, the oracle answered, the selector is non-empty, the action
kind is known, and the selector's target element is present in the just-taken
snapshot; every other case is tier failure (`none`), never a crash. -/
def tryOracle (snap : Option PageSnapshot) (resp : Option OracleResponse)
    (step : Step) : Option ResolvedAction :=
  match snap, resp with
  | some s, some r =>
      match knownAction? r.action with
      | some a =>
          if r.selector != "" && s.elements.contains r.selector then
            some { stepIndex := step.index, action := a, selector := r.selector,
                   value := step.value, sourceTier := .oracle }
          else none
      | none => none
  | _, _ => none

/-- Suffixes of the character list immediately following each occurrence of
`pat`, in document order. -/
def suffixesAfter (pat : List Char) : List Char → List (List Char)
  | [] => if pat.isEmpty then [[]] else []
  | c :: rest =>
      (if pat.isPrefixOf (c :: rest) then [(c :: rest).drop pat.length] else [])
        ++ suffixesAfter pat rest

/-- Read a quoted literal at the head of the character list: an opening quote
(single or double), then the body up to the matching closing quote; `none`
when the head is not a quote or the literal never closes. -/
def readQuoted (s : List Char) : Option String :=
  match s with
  | [] => none
  | c :: rest =>
      if c == '"' || c == squoteChar then
        if (rest.dropWhile (fun d => d != c)).isEmpty then none
        else some (String.mk (rest.takeWhile (fun d => d != c)))
      else none

/-- Modelled from the spec: the literal Playwright call pattern whose
occurrences in the generated artifact correspond to steps of the given kind
(§4.1 tier 2; the artifact is Python Playwright code per the Phase 3 docs). -/
def methodPattern : ActionType → String
  | .navigate => "page.goto("
  | .fill => "page.fill("
  | .click => "page.click("
  | .press => "page.press("
  | .select => "page.select_option("
  | .wait => "page.wait_for_selector("

/-- Modelled from the spec: the artifact-regex tier (§4.1 tier 2).  Scan the
artifact's text for the call pattern of the step's kind, take the call at the
step's position among same-kind calls (`ordinal`), and extract its first
quoted literal syntactically; accept only if such a selector literal is found,
with no validation against the live page. -/
def tryArtifact (artifact : String) (ordinal : Nat) (step : Step) :
    Option ResolvedAction :=
  let sufs := suffixesAfter (methodPattern step.intendedType).toList artifact.toList
  match sufs.get? ordinal with
  | some suf =>
      match readQuoted suf with
      | some lit =>
          some { stepIndex := step.index, action := step.intendedType,
                 selector := lit, value := step.value, sourceTier := .artifact }
      | none => none
  | none => none

/-- First whitespace-separated token of the description starting with `http`,
if any. -/
def extractUrlToken (desc : String) : Option String :=
  (desc.splitOn " ").find? (fun w => w.startsWith "http")

/-- Text between the first pair of quotes in the description, if any. -/
def quotedFragment (desc : String) : Option String :=
  readQuoted (desc.toList.dropWhile (fun c => c != '"' && c != squoteChar))

/-- Modelled from the spec: the field-name keyword search of the heuristic tier
(§4.1 tier 3: "a field-name keyword (email, password, submit, …)"). -/
def fieldKeyword (desc : String) : Option String :=
  if strIncludes desc "email" then some "email"
  else if strIncludes desc "password" then some "password"
  else if strIncludes desc "submit" then some "submit"
  else none

/-- Modelled from the spec: the heuristic tier (§4.1 tier 3).  Parse the step's
own description — a URL token for navigation, otherwise a synthesized
`[name="<field>"]` selector from a keyword (a vacuous default when nothing can
be inferred) together with any quoted value; this tier always produces some
ResolvedAction and is never a hard failure. -/
def heuristicResolve (step : Step) : ResolvedAction :=
  match step.intendedType with
  | .navigate =>
      { stepIndex := step.index, action := .navigate,
        selector := (extractUrlToken step.description).getD "about:blank",
        value := none, sourceTier := .heuristic }
  | t =>
      let sel :=
        match fieldKeyword step.description with
        | some f => "[name=" ++ "\"" ++ f ++ "\"" ++ "]"
        | none => "body"
      { stepIndex := step.index, action := t, selector := sel,
        value := match step.value with
          | some v => some v
          | none => quotedFragment step.description,
        sourceTier := .heuristic }

/-- Modelled from the spec: the SelectorResolver (§4.1).  The three tiers are
attempted in fixed order, each exactly once, stopping at the first success;
the heuristic tier is total, so the resolver always returns a ResolvedAction. -/
def resolveStep (snap : Option PageSnapshot) (resp : Option OracleResponse)
    (artifact : String) (ordinal : Nat) (step : Step) : ResolvedAction :=
  match tryOracle snap resp step with
  | some ra => ra
  | none =>
      match tryArtifact artifact ordinal step with
      | some ra => ra
      | none => heuristicResolve step

/-! ## Phase-4 step runner and report assembly (modelled from the spec) -/

/-- Modelled from the spec: the per-step status of a StepResult (§3). -/
inductive StepStatus where
  | passed | failed | error | skipped
  deriving Repr, DecidableEq

/-- Modelled from the spec: a StepResult, reduced to the fields the claims
speak about (§3). -/
structure StepResult where
  stepIndex : Nat
  status : StepStatus
  errorMessage : Option String := none
  deriving Repr, DecidableEq

/-- Modelled from the spec: how executing one step against the live page ends
(§4.2–§4.3, §7): it passes, fails (e.g. SelectorNotFound, ActionTimeout),
errors, or the engine itself becomes unusable (EngineFatal, e.g. a lost page
handle). -/
inductive StepOutcome where
  | pass
  | fail (msg : String)
  | err (msg : String)
  | fatal (msg : String)
  deriving Repr, DecidableEq

/-- Modelled from the spec: the StepRunner loop (§4.3).  Steps run strictly in
order; a failed or errored step does not stop the run; an EngineFatal
condition aborts, recording that step and every remaining one as Skipped with
an explanatory message.  Exactly one StepResult is appended per step. -/
def runSteps (outcome : Nat → StepOutcome) : List Step → Bool → List StepResult
  | [], _ => []
  | s :: rest, aborted =>
      if aborted then
        { stepIndex := s.index, status := .skipped,
          errorMessage := some "Skipped: execution aborted" }
          :: runSteps outcome rest true
      else
        match outcome s.index with
        | .pass =>
            { stepIndex := s.index, status := .passed } :: runSteps outcome rest false
        | .fail m =>
            { stepIndex := s.index, status := .failed, errorMessage := some m }
              :: runSteps outcome rest false
        | .err m =>
            { stepIndex := s.index, status := .error, errorMessage := some m }
              :: runSteps outcome rest false
        | .fatal m =>
            { stepIndex := s.index, status := .skipped, errorMessage := some m }
              :: runSteps outcome rest true

/-- Modelled from the spec: the terminal case-level status (§4.3, §7). -/
inductive CaseStatus where
  | passed | failed | error
  deriving Repr, DecidableEq

/-- Number of step results carrying the given status. -/
def countStatus (st : StepStatus) (rs : List StepResult) : Nat :=
  (rs.filter (fun r => r.status == st)).length

/-- Modelled from the spec: the overall status computed by the ExecutionReport
assembler (§3 invariant, §4.4): an aborted (skipped) or errored step makes the
case an error, any failed step makes it failed, otherwise it passed. -/
def overallStatus (rs : List StepResult) : CaseStatus :=
  if 0 < countStatus .skipped rs ∨ 0 < countStatus .error rs then .error
  else if 0 < countStatus .failed rs then .failed
  else .passed

/-- Modelled from the spec: the ExecutionReport
`{ testId, timestamp, overallStatus, steps, totalDurationMs }` (§3). -/
structure ExecutionReport where
  testId : String
  timestamp : Nat
  overall : CaseStatus
  steps : List StepResult
  totalDurationMs : Nat
  deriving Repr, DecidableEq

/-- Modelled from the spec: executing one TestCase end to end (§4.3–§4.4): run
every step from the non-aborted state, then assemble the report once the
terminal state is reached. -/
def executeCase (outcome : Nat → StepOutcome) (testId : String)
    (timestamp totalDurationMs : Nat) (steps : List Step) : ExecutionReport :=
  let rs := runSteps outcome steps false
  { testId := testId, timestamp := timestamp, overall := overallStatus rs,
    steps := rs, totalDurationMs := totalDurationMs }

/-! ## Helper lemmas -/

theorem runSteps_length (outcome : Nat → StepOutcome) (steps : List Step) :
    ∀ aborted : Bool, (runSteps outcome steps aborted).length = steps.length := by
  induction steps with
  | nil => intro ab; cases ab <;> rfl
  | cons s rest ih =>
      intro ab
      unfold runSteps
      cases ab with
      | true => simp [ih]
      | false => cases outcome s.index <;> simp [ih]

theorem countStatus_pos {rs : List StepResult} {r : StepResult} (hr : r ∈ rs)
    {st : StepStatus} (hst : r.status = st) : 0 < countStatus st rs := by
  unfold countStatus
  exact List.length_pos.mpr
    (List.ne_nil_of_mem (List.mem_filter.mpr ⟨hr, by simp [hst]⟩))

theorem overallStatus_passed_iff (rs : List StepResult) :
    overallStatus rs = .passed ↔ ∀ r ∈ rs, r.status = .passed := by
  unfold overallStatus
  constructor
  · intro h
    split at h
    · exact absurd h (by simp)
    · split at h
      · exact absurd h (by simp)
      · next h1 h2 =>
          intro r hr
          cases hst : r.status
          · rfl
          · exact absurd (countStatus_pos hr hst) h2
          · exact absurd (Or.inr (countStatus_pos hr hst)) h1
          · exact absurd (Or.inl (countStatus_pos hr hst)) h1
  · intro h
    have hsk : rs.filter (fun r => r.status == StepStatus.skipped) = [] :=
      List.filter_eq_nil_iff.mpr (fun r hr => by simp [h r hr])
    have herr : rs.filter (fun r => r.status == StepStatus.error) = [] :=
      List.filter_eq_nil_iff.mpr (fun r hr => by simp [h r hr])
    have hfl : rs.filter (fun r => r.status == StepStatus.failed) = [] :=
      List.filter_eq_nil_iff.mpr (fun r hr => by simp [h r hr])
    simp [countStatus, hsk, herr, hfl]

theorem insertByTs_length (x : ReportSummary) (l : List ReportSummary) :
    (insertByTs x l).length = l.length + 1 := by
  induction l with
  | nil => rfl
  | cons y ys ih =>
      unfold insertByTs
      by_cases h : y.timestamp ≤ x.timestamp <;> simp [h, ih]

theorem sortByTsDesc_length (l : List ReportSummary) :
    (sortByTsDesc l).length = l.length := by
  induction l with
  | nil => rfl
  | cons x xs ih => simp [sortByTsDesc, insertByTs_length, ih]

theorem mem_insertByTs {a x : ReportSummary} {l : List ReportSummary} :
    a ∈ insertByTs x l ↔ a = x ∨ a ∈ l := by
  induction l with
  | nil => simp [insertByTs]
  | cons y ys ih =>
      unfold insertByTs
      by_cases h : y.timestamp ≤ x.timestamp
      · simp [h]
      · simp [h, ih]
        tauto

/-- Non-increasing timestamp order on a summary list. -/
def TsSorted (l : List ReportSummary) : Prop :=
  l.Pairwise (fun a b => b.timestamp ≤ a.timestamp)

theorem insertByTs_sorted {x : ReportSummary} {l : List ReportSummary}
    (hl : TsSorted l) : TsSorted (insertByTs x l) := by
  induction l with
  | nil => simp [insertByTs, TsSorted]
  | cons y ys ih =>
      unfold insertByTs
      by_cases h : y.timestamp ≤ x.timestamp
      · rw [if_pos h]
        rw [TsSorted, List.pairwise_cons]
        refine ⟨?_, hl⟩
        intro b hb
        rcases List.mem_cons.mp hb with rfl | hb
        · exact h
        · exact le_trans ((List.pairwise_cons.mp hl).1 b hb) h
      · rw [if_neg h]
        have hl' := List.pairwise_cons.mp hl
        rw [TsSorted, List.pairwise_cons]
        refine ⟨?_, ih hl'.2⟩
        intro b hb
        rcases mem_insertByTs.mp hb with rfl | hb
        · exact le_of_not_le h
        · exact hl'.1 b hb

theorem sortByTsDesc_sorted (l : List ReportSummary) : TsSorted (sortByTsDesc l) := by
  induction l with
  | nil => simp [sortByTsDesc, TsSorted]
  | cons x xs ih => exact insertByTs_sorted ih

theorem getById_replace (name : String) (r : StoredReport) :
    ∀ l : ReportsDir, l.any (fun e => e.1 == name) = true →
      (((l.map (fun e => if e.1 == name then (e.1, r) else e)).find?
          (fun e => e.1 == name)).map (fun e => e.2)) = some r := by
  intro l
  induction l with
  | nil => intro h; simp at h
  | cons e es ih =>
      intro h
      by_cases he : (e.1 == name) = true
      · rw [List.map_cons, if_pos he, List.find?_cons_of_pos]
        · rfl
        · exact he
      · rw [List.map_cons, if_neg he, List.find?_cons_of_neg]
        · exact ih (by simpa [List.any_cons, he] using h)
        · exact he

theorem find?_append_none {α : Type} (p : α → Bool) :
    ∀ l₁ l₂ : List α, (∀ e ∈ l₁, p e = false) →
      (l₁ ++ l₂).find? p = l₂.find? p := by
  intro l₁
  induction l₁ with
  | nil => intro l₂ _; rfl
  | cons e es ih =>
      intro l₂ h
      rw [List.cons_append, List.find?_cons_of_neg]
      · exact ih l₂ (fun x hx => h x (List.mem_cons_of_mem e hx))
      · simp [h e (List.mem_cons_self e es)]

theorem getReportById_saveReport (dir : ReportsDir) (r : StoredReport) :
    getReportById (saveReport dir r) r.id = some r := by
  unfold getReportById saveReport
  by_cases h : dir.any (fun e => e.1 == r.id ++ ".json") = true
  · rw [if_pos h]
    exact getById_replace _ r dir h
  · rw [if_neg h]
    have hall : ∀ e ∈ dir, (e.1 == r.id ++ ".json") = false := by
      intro e he
      by_contra hne
      exact h (List.any_eq_true.mpr ⟨e, he, eq_true_of_ne_false hne⟩)
    rw [find?_append_none _ dir _ hall]
    simp [List.find?]

/-! Literal-safety lemmas for the generated code (`sanitizeString`). -/

theorem lit_escChar (c : Char) (rest : List Char) (hc : c ≠ '\r') :
    litConsumesAll (escChar c ++ rest) = litConsumesAll rest := by
  by_cases hq : c = squoteChar
  · subst hq; rfl
  · by_cases hd : c = '"'
    · subst hd; rfl
    · by_cases hb : c = '\\'
      · subst hb; rfl
      · by_cases hn : c = '\n'
        · subst hn; rfl
        · have hq' : (c == squoteChar) = false := by simp [hq]
          have hd' : (c == '"') = false := by simp [hd]
          have hb' : (c == '\\') = false := by simp [hb]
          have hn' : (c == '\n') = false := by simp [hn]
          have hr' : (c == '\r') = false := by simp [hc]
          have hesc : escChar c ++ rest = c :: rest := by
            simp [escChar, hq', hd', hb', hn']
          rw [hesc]
          conv_lhs => unfold litConsumesAll
          simp [hq', hb', hn', hr']

theorem lit_sanitizeChars (l : List Char) (h : '\r' ∉ l) :
    litConsumesAll (sanitizeChars l) = true := by
  induction l with
  | nil => rfl
  | cons c rest ih =>
      rw [sanitizeChars, lit_escChar c _ (fun hcr => h (hcr ▸ List.mem_cons_self c rest))]
      exact ih (fun hm => h (List.mem_cons_of_mem c hm))

theorem saveReport_fresh (dir : ReportsDir) (r : StoredReport)
    (h : ∀ e ∈ dir, e.1 ≠ r.id ++ ".json") :
    saveReport dir r = dir ++ [(r.id ++ ".json", r)] := by
  unfold saveReport
  have hany : dir.any (fun e => e.1 == r.id ++ ".json") = false := by
    by_contra hne
    obtain ⟨e, he, hpe⟩ := List.any_eq_true.mp (eq_true_of_ne_false hne)
    exact h e he (by simpa using hpe)
  simp [hany]

theorem saveReport_fresh_length (dir : ReportsDir) (r : StoredReport)
    (h : ∀ e ∈ dir, e.1 ≠ r.id ++ ".json") :
    (saveReport dir r).length = dir.length + 1 := by
  rw [saveReport_fresh dir r h]
  simp

/-! ## The claims -/

/-- C1: Tier priority is absolute in selector resolution — whenever the oracle
answers with a non-empty selector of a known action kind whose target element
is present in the just-taken page snapshot, the ResolvedAction for that step
carries `sourceTier = oracle`, never artifact or heuristic. -/
theorem claim_C1_tier_priority (s : PageSnapshot) (r : OracleResponse)
    (a : ActionType) (artifact : String) (ordinal : Nat) (step : Step)
    (hknown : knownAction? r.action = some a)
    (hsel : r.selector ≠ "")
    (hpresent : s.elements.contains r.selector = true) :
    (resolveStep (some s) (some r) artifact ordinal step).sourceTier
      = SourceTier.oracle := by
  have horacle : tryOracle (some s) (some r) step
      = some { stepIndex := step.index, action := a, selector := r.selector,
               value := step.value, sourceTier := .oracle } := by
    have hmem : r.selector ∈ s.elements := by simpa using hpresent
    simp [tryOracle, hknown, hsel, hmem]
  unfold resolveStep
  rw [horacle]

/-- C1 witness at a concrete snapshot, oracle answer and step. -/
theorem claim_C1_tier_priority_witness :
    (resolveStep (some ⟨["#login"]⟩) (some ⟨"click", "#login"⟩) "" 0
        ⟨0, "click the login button", .click, none, none⟩).sourceTier
      = SourceTier.oracle :=
  claim_C1_tier_priority ⟨["#login"]⟩ ⟨"click", "#login"⟩ .click "" 0
    ⟨0, "click the login button", .click, none, none⟩
    (by decide) (by decide) (by decide)

/-- C2: Fallback resolution is total — when the oracle tier fails the artifact
tier's answer decides, and when that too yields no selector literal the
heuristic tier's ResolvedAction (which always exists, the resolver's return
type being total) is used; the resolver never raises a hard failure. -/
theorem claim_C2_fallback_total (snap : Option PageSnapshot)
    (resp : Option OracleResponse) (artifact : String) (ordinal : Nat)
    (step : Step) (horacle : tryOracle snap resp step = none) :
    (tryArtifact artifact ordinal step = none →
        resolveStep snap resp artifact ordinal step = heuristicResolve step)
    ∧ ∀ ra, tryArtifact artifact ordinal step = some ra →
        resolveStep snap resp artifact ordinal step = ra := by
  unfold resolveStep
  rw [horacle]
  constructor
  · intro hart; rw [hart]
  · intro ra hart; rw [hart]

/-- C2 witness: an absent snapshot and oracle answer and an empty artifact
force both upper tiers to fail, and the resolver still returns the heuristic
tier's action. -/
theorem claim_C2_fallback_total_witness :
    resolveStep none none "" 0 ⟨0, "fill the email field", .fill, none, none⟩
      = heuristicResolve ⟨0, "fill the email field", .fill, none, none⟩ :=
  (claim_C2_fallback_total none none "" 0
    ⟨0, "fill the email field", .fill, none, none⟩ rfl).1 (by decide)

/-- C3: every executed TestCase yields exactly one StepResult per step —
`ExecutionReport.steps.length = TestCase.steps.length` — including aborted
runs, whose remaining steps appear as Skipped. -/
theorem claim_C3_one_result_per_step (outcome : Nat → StepOutcome)
    (testId : String) (ts dur : Nat) (steps : List Step) :
    (executeCase outcome testId ts dur steps).steps.length = steps.length :=
  runSteps_length outcome steps false

/-- C4: the report's overall status is `passed` iff every individual step
result of that execution is `passed`. -/
theorem claim_C4_overall_passed_iff (outcome : Nat → StepOutcome)
    (testId : String) (ts dur : Nat) (steps : List Step) :
    (executeCase outcome testId ts dur steps).overall = CaseStatus.passed ↔
      ∀ r ∈ (executeCase outcome testId ts dur steps).steps,
        r.status = StepStatus.passed :=
  overallStatus_passed_iff _

/-- C5 counterexample: calling `executeTest` on a missing test file returns a
`Test file not found` failure and persists no report at all, so not every
execution attempt saves a report. -/
theorem claim_C5_counterexample :
    (executeTest ⟨fun _ => false, .exit 0 "" "", 0, 0⟩ [] "demo.spec.js").dir = []
    ∧ (executeTest ⟨fun _ => false, .exit 0 "" "", 0, 0⟩ []
        "demo.spec.js").res.success = false
    ∧ (executeTest ⟨fun _ => false, .exit 0 "" "", 0, 0⟩ []
        "demo.spec.js").res.error = some "Test file not found: demo.spec.js" :=
  ⟨rfl, rfl, rfl⟩

/-- C5 amended: an execution attempt that passes the existence probe and the
path validation persists exactly one report (its `report-<now>.json` name
being fresh); an attempt stopped by either check returns a failure result and
persists nothing. -/
theorem claim_C5_one_report_when_run (env : ExecEnv) (dir : ReportsDir)
    (p : String)
    (hfresh : ∀ e ∈ dir, e.1 ≠ "report-" ++ toString env.now ++ ".json") :
    ((env.existsAt (jsJoin GENERATED_TESTS_DIR p) = true ∧ pathInvalid p = false) →
        (executeTest env dir p).dir.length = dir.length + 1)
    ∧ ((env.existsAt (jsJoin GENERATED_TESTS_DIR p) = false ∨ pathInvalid p = true) →
        (executeTest env dir p).dir = dir
        ∧ (executeTest env dir p).res.success = false) := by
  constructor
  · rintro ⟨hex, hval⟩
    unfold executeTest
    simp only [hex, hval, Bool.not_true, Bool.false_eq_true, if_false]
    exact saveReport_fresh_length dir _ (fun e he => hfresh e he)
  · intro hcase
    by_cases hex : env.existsAt (jsJoin GENERATED_TESTS_DIR p) = true
    · have hval : pathInvalid p = true := by
        rcases hcase with h | h
        · rw [hex] at h; exact absurd h (by simp)
        · exact h
      unfold executeTest
      simp [hex, hval]
    · have hex' : env.existsAt (jsJoin GENERATED_TESTS_DIR p) = false := by
        simpa using hex
      unfold executeTest
      simp [hex']

/-- C5 witness: with the file present, a safe path and an empty reports
directory, exactly one report is persisted. -/
theorem claim_C5_one_report_when_run_witness :
    (executeTest ⟨fun _ => true, .exit 0 "ok" "", 5, 7⟩ [] "t.spec.js").dir.length
      = 1 :=
  (claim_C5_one_report_when_run ⟨fun _ => true, .exit 0 "ok" "", 5, 7⟩ []
    "t.spec.js" (by intro e he; simp at he)).1 ⟨rfl, by decide⟩

/-- C6: a report saved under its id is retrieved by `getReportById`, an absent
id yields null, and `getReportList` returns one summary per `.json` report,
in non-increasing timestamp order. -/
theorem claim_C6_reports_retrievable (dir : ReportsDir) (r : StoredReport)
    (id : String) (habsent : ∀ e ∈ dir, e.1 ≠ id ++ ".json") :
    getReportById (saveReport dir r) r.id = some r
    ∧ getReportById dir id = none
    ∧ (getReportList dir).length
        = (dir.filter (fun e => e.1.endsWith ".json")).length
    ∧ TsSorted (getReportList dir) := by
  refine ⟨getReportById_saveReport dir r, ?_, ?_, sortByTsDesc_sorted _⟩
  · unfold getReportById
    rw [List.find?_eq_none.mpr]
    · rfl
    · intro e he
      simp [habsent e he]
  · unfold getReportList
    rw [sortByTsDesc_length, List.length_map]

/-- C6 witness at a concrete directory and report. -/
theorem claim_C6_reports_retrievable_witness :
    getReportById (saveReport [] ⟨"report-1", "t.spec.js", 1, 2, true, "", ""⟩)
        "report-1" = some ⟨"report-1", "t.spec.js", 1, 2, true, "", ""⟩
    ∧ getReportById ([] : ReportsDir) "zzz" = none
    ∧ (getReportList ([] : ReportsDir)).length
        = (([] : ReportsDir).filter (fun e => e.1.endsWith ".json")).length
    ∧ TsSorted (getReportList ([] : ReportsDir)) :=
  claim_C6_reports_retrievable [] ⟨"report-1", "t.spec.js", 1, 2, true, "", ""⟩
    "zzz" (by intro e he; simp at he)

/-- C7 counterexample: the wait behind `performAction`'s `click` branch is
passed no explicit timeout option at all, and `navigateTo`'s only explicit
ceiling is 30000 ms — not every wait carries an explicit tunable ceiling in
the few-seconds range. -/
theorem claim_C7_counterexample :
    performActionExplicitTimeout "click" = some none
    ∧ navigateToGotoOptions.timeout = some 30000 :=
  ⟨rfl, rfl⟩

/-- C7 amended: `navigateTo`'s single wait carries an explicit hard-coded
30000 ms ceiling and a thrown timeout is caught and returned as a failure
result rather than left pending, while `performAction`'s element waits pass
no explicit timeout option and rely on the library default. -/
theorem claim_C7_timeouts (url landed msg a : String) (w : Option Nat)
    (h : performActionExplicitTimeout a = some w) :
    navigateToGotoOptions.timeout = some 30000
    ∧ navigateTo (.thrown msg) url landed
        = { success := false, error := some msg }
    ∧ w = none := by
  refine ⟨rfl, rfl, ?_⟩
  unfold performActionExplicitTimeout at h
  split at h <;> simp_all

/-- C7 witness at the `click` action. -/
theorem claim_C7_timeouts_witness :
    navigateToGotoOptions.timeout = some 30000
    ∧ navigateTo (.thrown "Timeout 30000ms exceeded") "http://x.test" ""
        = { success := false, error := some "Timeout 30000ms exceeded" }
    ∧ (none : Option Nat) = none :=
  claim_C7_timeouts "http://x.test" "" "Timeout 30000ms exceeded" "click" none rfl

/-- C8 counterexample: a `fill` action is not among `performAction`'s
supported kinds — even with the page ready and the underlying call
succeeding it returns `Unknown action: fill` instead of an ok result (and no
result of the module carries a SelectorNotFound errorKind field). -/
theorem claim_C8_counterexample :
    performAction true .ok "fill" "#email" "a@b.com"
      = { success := false, error := some "Unknown action: fill" } :=
  rfl

/-- C8 amended: the value-setting action is `type` (dispatched to
`page.fill`); when the underlying call throws — as it does when no element
matches the selector within the library's bounded wait — `performAction`
returns `{ success: false, error: message }` with no errorKind
classification; on success it returns `{ success: true, message }`; a literal
`fill` action is rejected as unknown without touching the page. -/
theorem claim_C8_fill_type (sel v m : String) :
    performAction true (.thrown m) "type" sel v
      = { success := false, error := some m }
    ∧ performAction true .ok "type" sel v
      = { success := true,
          message := some "Action type performed successfully" }
    ∧ ∀ o, performAction true o "fill" sel v
      = { success := false, error := some "Unknown action: fill" } :=
  ⟨rfl, rfl, fun _ => rfl⟩

/-- C9 counterexample: a carriage return passes through `sanitizeString`
unchanged and terminates the single-quoted literal of the generated program
text — not every input value is escaped into literal-safe text. -/
theorem claim_C9_counterexample :
    sanitizeString (String.mk ['a', '\r', 'b']) = String.mk ['a', '\r', 'b']
    ∧ litConsumesAll (sanitizeString (String.mk ['a', '\r', 'b'])).toList
        = false :=
  ⟨rfl, rfl⟩

/-- C9 amended: `sanitizeString` escapes quotes and backslashes and rewrites
newlines to `\n`, the generated `type` line embeds selector and value only
through `sanitizeString`, and `sanitizeUrl` substitutes `about:blank` for
empty or invalid URLs; sanitized text cannot terminate the enclosing
single-quoted literal provided the input is free of carriage returns (which
the sanitizer does not touch). -/
theorem claim_C9_sanitization :
    (∀ s : String, '\r' ∉ s.toList →
        litConsumesAll (sanitizeString s).toList = true)
    ∧ (∀ sel v : String, generateActionCode "type" sel v
        = "    await page.fill(" ++ quoteLit (sanitizeString sel) ++ ", "
            ++ quoteLit (sanitizeString v) ++ ");")
    ∧ (∀ f : String → Bool, ∀ url : String,
        url.isEmpty = false → f url = false → sanitizeUrl f url = "about:blank")
    ∧ (∀ f : String → Bool, sanitizeUrl f "" = "about:blank") := by
  refine ⟨?_, fun sel v => rfl, ?_, fun f => rfl⟩
  · intro s hs
    unfold sanitizeString
    by_cases he : s.isEmpty = true
    · simp [he, litConsumesAll]
    · simp only [he, Bool.false_eq_true, if_false]
      exact lit_sanitizeChars s.toList hs
  · intro f url hemp hf
    unfold sanitizeUrl
    simp [hemp, hf]

/-- C9 witness at concrete safe inputs. -/
theorem claim_C9_sanitization_witness :
    litConsumesAll (sanitizeString "a@b.com").toList = true
    ∧ sanitizeUrl (fun _ => false) "nonsense" = "about:blank" :=
  ⟨claim_C9_sanitization.1 "a@b.com" (by decide),
    claim_C9_sanitization.2.2.1 (fun _ => false) "nonsense" (by decide) rfl⟩

/-- C10 counterexample: for an unsafe path whose joined file does not exist,
`executeTest` returns `Test file not found: …` rather than the claimed
`Invalid test path` (it still spawns nothing). -/
theorem claim_C10_counterexample :
    pathInvalid "a;b.spec.js" = true
    ∧ (executeTest ⟨fun _ => false, .exit 0 "" "", 0, 0⟩ [] "a;b.spec.js").res
        = { success := false, error := some "Test file not found: a;b.spec.js" }
    ∧ (executeTest ⟨fun _ => false, .exit 0 "" "", 0, 0⟩ []
        "a;b.spec.js").launched = false :=
  ⟨by decide, rfl, rfl⟩

/-- C10 amended: for every testPath that differs from its basename or
contains `..`, `;`, or `&`, `executeTest` launches no child process, saves
nothing and returns a failure — `Invalid test path` when the joined path
exists, `Test file not found: …` when it does not — so only files directly
inside the generated_tests directory are ever executed. -/
theorem claim_C10_no_spawn_on_unsafe (env : ExecEnv) (dir : ReportsDir)
    (p : String) (hbad : pathInvalid p = true) :
    (executeTest env dir p).launched = false
    ∧ (executeTest env dir p).dir = dir
    ∧ (executeTest env dir p).res.success = false
    ∧ (executeTest env dir p).res.error
        = some (if env.existsAt (jsJoin GENERATED_TESTS_DIR p)
                then "Invalid test path" else "Test file not found: " ++ p) := by
  by_cases hex : env.existsAt (jsJoin GENERATED_TESTS_DIR p) = true
  · unfold executeTest
    simp [hex, hbad]
  · have hex' : env.existsAt (jsJoin GENERATED_TESTS_DIR p) = false := by
      simpa using hex
    unfold executeTest
    simp [hex']

/-- C10 witness at the unsafe path `..` with the joined path existing. -/
theorem claim_C10_no_spawn_on_unsafe_witness :
    (executeTest ⟨fun _ => true, .exit 0 "" "", 0, 0⟩ [] "..").launched = false
    ∧ (executeTest ⟨fun _ => true, .exit 0 "" "", 0, 0⟩ [] "..").dir = []
    ∧ (executeTest ⟨fun _ => true, .exit 0 "" "", 0, 0⟩ [] "..").res.success = false
    ∧ (executeTest ⟨fun _ => true, .exit 0 "" "", 0, 0⟩ [] "..").res.error
        = some (if (⟨fun _ => true, .exit 0 "" "", 0, 0⟩ : ExecEnv).existsAt
                  (jsJoin GENERATED_TESTS_DIR "..")
                then "Invalid test path" else "Test file not found: " ++ "..") :=
  claim_C10_no_spawn_on_unsafe ⟨fun _ => true, .exit 0 "" "", 0, 0⟩ [] ".."
    (by decide)

end O2morni
